import Mathlib

/-
  Shallow embedding of MaestroServoController.ino (Pololu Maestro servo
  controller sketch).  Device traffic is modelled as a list of abstract
  commands; serial input as a list of characters; the Arduino helpers
  constrain/map/parseInt are embedded with C integer semantics
  (truncating division, wrap-around on the uint16_t conversion).
-/

namespace Maestro

/-- ENABLED_CHANNELS from the sketch: channels 0, 1, 2. -/
def ENABLED_CHANNELS : List Nat := [0, 1, 2]

/-- NUM_CHANNELS = number of enabled channels. -/
def NUM_CHANNELS : Nat := ENABLED_CHANNELS.length

def DEFAULT_SPEED : Nat := 0

def DEFAULT_ACCELERATION : Nat := 127

def MID_POSITION : Nat := 6000

def DEMO_SPEED : Nat := 0

def DEMO_ACCEL_SMOOTH : Nat := 5

def DEMO_ACCEL_QUICK : Nat := 0

def MIN_ANGLE : Int := 70

def MAX_ANGLE : Int := 110

/-- Arduino constrain macro: clamp x to [lo, hi]. -/
def constrain (x lo hi : Int) : Int :=
  if x < lo then lo else if x > hi then hi else x

/-- Arduino map helper on long values: (x - inMin) * (outMax - outMin) /
(inMax - inMin) + outMin, with C truncating division. -/
def arduinoMap (x inMin inMax outMin outMax : Int) : Int :=
  Int.tdiv ((x - inMin) * (outMax - outMin)) (inMax - inMin) + outMin

/-- C conversion of a long value to uint16_t (reduction mod 2^16,
where the modulus on Int is the always-nonnegative Int.emod). -/
def toUInt16 (x : Int) : Nat :=
  (x % 65536).toNat

/-- mapAngleToTarget from the sketch: constrain the angle to
[MIN_ANGLE, MAX_ANGLE], then map [MIN_ANGLE, MAX_ANGLE] onto [4000, 8000]
quarter-microseconds; the result is returned as uint16_t. -/
def mapAngleToTarget (angle : Int) : Nat :=
  toUInt16 (arduinoMap (constrain angle MIN_ANGLE MAX_ANGLE) MIN_ANGLE MAX_ANGLE 4000 8000)

/-- One command sent to the Maestro device abstraction
(maestro.setTarget / maestro.setSpeed / maestro.setAcceleration). -/
inductive DeviceCmd
  | setTarget (channel : Nat) (pulse : Nat)
  | setSpeed (channel : Nat) (value : Nat)
  | setAcceleration (channel : Nat) (value : Nat)
deriving DecidableEq

/-- setChannelParams from the sketch: one setSpeed then one
setAcceleration on the channel. -/
def setChannelParams (channel : Nat) (speed accel : Nat) : List DeviceCmd :=
  [DeviceCmd.setSpeed channel speed, DeviceCmd.setAcceleration channel accel]

/-- moveServo from the sketch: map the angle and issue one setTarget. -/
def moveServo (channel : Nat) (angle : Int) : DeviceCmd :=
  DeviceCmd.setTarget channel (mapAngleToTarget angle)

/-- initializeChannel from the sketch: set default speed and
acceleration, then move to the 90 degree mid position. -/
def initializeChannel (channel : Nat) : List DeviceCmd :=
  setChannelParams channel DEFAULT_SPEED DEFAULT_ACCELERATION ++ [moveServo channel 90]

/-- resetAllServos from the sketch: initializeChannel on every enabled
channel. -/
def resetAllServos : List DeviceCmd :=
  ENABLED_CHANNELS.flatMap initializeChannel

/-- randomPattern from the sketch: 3 iterations; in each, every enabled
channel gets demo speed / quick acceleration and a move to a pseudo-random
angle.  The random values drawn by the Arduino random(MIN_ANGLE,
MAX_ANGLE + 1) calls are supplied as the list rands, read in call order
(iteration-major); a missing entry defaults to 90. -/
def randomPattern (rands : List Int) : List DeviceCmd :=
  (List.range 3).flatMap (fun i =>
    (List.range NUM_CHANNELS).flatMap (fun j =>
      setChannelParams (ENABLED_CHANNELS.getD j 0) DEMO_SPEED DEMO_ACCEL_QUICK ++
      [moveServo (ENABLED_CHANNELS.getD j 0) (rands.getD (NUM_CHANNELS * i + j) 90)]))

/-- synchronizedSweep from the sketch: params + move to MAX_ANGLE on each
channel, then a bare move to MIN_ANGLE on each, then a bare move to 90. -/
def synchronizedSweep : List DeviceCmd :=
  ENABLED_CHANNELS.flatMap
    (fun ch => setChannelParams ch DEMO_SPEED DEMO_ACCEL_SMOOTH ++ [moveServo ch MAX_ANGLE]) ++
  ENABLED_CHANNELS.map (fun ch => moveServo ch MIN_ANGLE) ++
  ENABLED_CHANNELS.map (fun ch => moveServo ch 90)

/-- The positions array of waveSweep: MIN_ANGLE, 90, MAX_ANGLE. -/
def wavePositions : List Int := [MIN_ANGLE, 90, MAX_ANGLE]

/-- waveSweep from the sketch: channel i gets params and a move to
positions[i % 3], then every channel is recentered at 90. -/
def waveSweep : List DeviceCmd :=
  (List.range NUM_CHANNELS).flatMap (fun i =>
    setChannelParams (ENABLED_CHANNELS.getD i 0) DEMO_SPEED DEMO_ACCEL_SMOOTH ++
    [moveServo (ENABLED_CHANNELS.getD i 0) (wavePositions.getD (i % 3) 0)]) ++
  (List.range NUM_CHANNELS).map (fun i => moveServo (ENABLED_CHANNELS.getD i 0) 90)

/-- One pass of the demo while-loop body when no exit was requested:
randomPattern, synchronizedSweep, waveSweep (delays carry no commands). -/
def demoPatterns (rands : List Int) : List DeviceCmd :=
  randomPattern rands ++ synchronizedSweep ++ waveSweep

/-- The inner Serial.available drain at the top of the demo loop: read
characters until one that is neither a newline nor a carriage return is
found (exit requested; the rest of the buffer is returned) or the buffer
is exhausted (no exit). -/
def checkExitBuf : List Char → Bool × List Char
  | [] => (false, [])
  | c :: cs => if c = '\n' ∨ c = '\r' then checkExitBuf cs else (true, cs)

/-- The while (Serial.available()) Serial.read() drain after the demo
loop: every remaining buffered character is consumed. -/
def drainInput : List Char → List Char
  | [] => []
  | _ :: cs => drainInput cs

/-- runDemo from the sketch, driven by a finite observation schedule: one
entry per top-of-loop poll, holding the serial buffer contents seen by the
poll and the random angles drawn if the patterns run.  Result: the device
commands issued, whether the loop exited within the schedule (false
models the observation window ending with the demo still looping), and
the serial buffer left behind after the post-loop drain. -/
def runDemo : List (List Char × List Int) → List DeviceCmd × Bool × List Char
  | [] => ([], false, [])
  | (buf, rands) :: rest =>
    if (checkExitBuf buf).1 then
      (resetAllServos, true, drainInput (checkExitBuf buf).2)
    else
      (demoPatterns rands ++ (runDemo rest).1, (runDemo rest).2.1, (runDemo rest).2.2)

/-- Arduino Stream::parseInt lookahead: discard buffered characters until
a digit or a minus sign is at the front. -/
def skipToNumber : List Char → List Char
  | [] => []
  | c :: cs => if c.isDigit ∨ c = '-' then c :: cs else skipToNumber cs

/-- Arduino Stream::parseInt digit accumulation: consume consecutive
digits, stopping at the first non-digit. -/
def parseDigits : List Char → Nat → Nat
  | [], acc => acc
  | c :: cs, acc => if c.isDigit then parseDigits cs (10 * acc + (c.toNat - 48)) else acc

/-- Serial.parseInt() on a buffered line: skip to the first digit or
minus sign, accumulate digits, negate after a minus sign; 0 when the
buffer holds no digits (the Arduino timeout result). -/
def parseIntArduino (cs : List Char) : Int :=
  match skipToNumber cs with
  | [] => 0
  | c :: rest =>
    if c = '-' then -(parseDigits rest 0 : Int) else (parseDigits (c :: rest) 0 : Int)

/-- A diagnostic message printed by the dispatcher: the accepted-move
report or the invalid-angle rejection. -/
inductive Diag
  | moving (angle : Int)
  | invalidAngle
deriving DecidableEq

/-- The angle branch of loop(): if the parsed angle is within
[MIN_ANGLE, MAX_ANGLE], report the move and issue moveServo on every
enabled channel; otherwise print the invalid-angle rejection and issue
nothing. -/
def dispatchAngle (angle : Int) : List DeviceCmd × List Diag :=
  if MIN_ANGLE ≤ angle ∧ angle ≤ MAX_ANGLE then
    (ENABLED_CHANNELS.map (fun ch => moveServo ch angle), [Diag.moving angle])
  else
    ([], [Diag.invalidAngle])

/-- One iteration of loop() with input available: a buffer whose first
character is the demo trigger d enters runDemo (demoSched holds the
buffers and random draws its polls observe, starting from the characters
after the trigger); any other buffer is given to parseInt, drained, and
dispatched on the parsed angle. -/
def loopBody (input : List Char) (demoSched : List (List Char × List Int)) :
    List DeviceCmd × List Diag :=
  if input.head? = some 'd' then
    ((runDemo demoSched).1, [])
  else
    dispatchAngle (parseIntArduino input)

/-- One serial interaction observed by loop(): the buffered input that
triggered the iteration and, for demo mode, the schedule its polls see. -/
structure UserEvent where
  input : List Char
  demoSched : List (List Char × List Int)

/-- The device commands one loop() iteration issues. -/
def eventCmds (e : UserEvent) : List DeviceCmd :=
  (loopBody e.input e.demoSched).1

/-- The full device-command trace of a session: setup() runs
resetAllServos, then each observed loop() iteration appends its
commands. -/
def systemTrace (events : List UserEvent) : List DeviceCmd :=
  resetAllServos ++ events.flatMap eventCmds

/-- The channel a device command addresses. -/
def cmdChannel : DeviceCmd → Nat
  | DeviceCmd.setTarget ch _ => ch
  | DeviceCmd.setSpeed ch _ => ch
  | DeviceCmd.setAcceleration ch _ => ch

/-- A set-target command carries a pulse width within [4000, 8000];
other commands are unconstrained. -/
def pulseOk : DeviceCmd → Prop
  | DeviceCmd.setTarget _ p => 4000 ≤ p ∧ p ≤ 8000
  | DeviceCmd.setSpeed _ _ => True
  | DeviceCmd.setAcceleration _ _ => True

instance : DecidablePred pulseOk := fun cmd =>
  match cmd with
  | DeviceCmd.setTarget _ p => inferInstanceAs (Decidable (4000 ≤ p ∧ p ≤ 8000))
  | DeviceCmd.setSpeed _ _ => inferInstanceAs (Decidable True)
  | DeviceCmd.setAcceleration _ _ => inferInstanceAs (Decidable True)

/-- A command is well formed when it addresses an enabled channel and any
pulse width it carries is within [4000, 8000]. -/
def cmdOk (cmd : DeviceCmd) : Prop :=
  cmdChannel cmd ∈ ENABLED_CHANNELS ∧ pulseOk cmd

instance (cmd : DeviceCmd) : Decidable (cmdOk cmd) :=
  inferInstanceAs (Decidable (And _ _))

/-- Bookkeeping state for the parameter-discipline checkers: for each
channel, whether a speed (first) and an acceleration (second) have been
set in the window under consideration. -/
def noteSpeed (ch : Nat) (st : Nat → Bool × Bool) : Nat → Bool × Bool :=
  fun c => if c = ch then (true, (st c).2) else st c

def noteAccel (ch : Nat) (st : Nat → Bool × Bool) : Nat → Bool × Bool :=
  fun c => if c = ch then ((st c).1, true) else st c

def clearParams (ch : Nat) (st : Nat → Bool × Bool) : Nat → Bool × Bool :=
  fun c => if c = ch then (false, false) else st c

/-- Checker for the per-move discipline: scanning the trace left to
right, every setTarget on a channel requires that a setSpeed and a
setAcceleration for that channel occurred since the channel's previous
setTarget (or since the start of the trace, for its first move); the
move then opens a fresh window for that channel. -/
def paramsSinceLastMove : List DeviceCmd → (Nat → Bool × Bool) → Bool
  | [], _ => true
  | DeviceCmd.setSpeed ch _ :: rest, st => paramsSinceLastMove rest (noteSpeed ch st)
  | DeviceCmd.setAcceleration ch _ :: rest, st => paramsSinceLastMove rest (noteAccel ch st)
  | DeviceCmd.setTarget ch _ :: rest, st =>
    (st ch).1 && (st ch).2 && paramsSinceLastMove rest (clearParams ch st)

/-- Checker for the weaker once-ever discipline: every setTarget on a
channel requires that a setSpeed and a setAcceleration for that channel
occurred at some earlier point of the trace; set values persist across
moves. -/
def paramsEverSet : List DeviceCmd → (Nat → Bool × Bool) → Bool
  | [], _ => true
  | DeviceCmd.setSpeed ch _ :: rest, st => paramsEverSet rest (noteSpeed ch st)
  | DeviceCmd.setAcceleration ch _ :: rest, st => paramsEverSet rest (noteAccel ch st)
  | DeviceCmd.setTarget ch _ :: rest, st =>
    (st ch).1 && (st ch).2 && paramsEverSet rest st

/-- The bookkeeping state after a trace, for the once-ever discipline. -/
def noteParams : List DeviceCmd → (Nat → Bool × Bool) → Nat → Bool × Bool
  | [], st => st
  | DeviceCmd.setSpeed ch _ :: rest, st => noteParams rest (noteSpeed ch st)
  | DeviceCmd.setAcceleration ch _ :: rest, st => noteParams rest (noteAccel ch st)
  | DeviceCmd.setTarget _ _ :: rest, st => noteParams rest st

/-- A state that records both parameters as set on every enabled
channel. -/
def goodOn (st : Nat → Bool × Bool) : Prop :=
  ∀ ch ∈ ENABLED_CHANNELS, st ch = (true, true)

/-- The constrained angle lies in [MIN_ANGLE, MAX_ANGLE]. -/
theorem constrain_mem (a : Int) :
    MIN_ANGLE ≤ constrain a MIN_ANGLE MAX_ANGLE ∧ constrain a MIN_ANGLE MAX_ANGLE ≤ MAX_ANGLE := by
  simp only [constrain, MIN_ANGLE, MAX_ANGLE]
  split_ifs <;> omega

/-- Below the lower limit, constrain yields the lower limit. -/
theorem constrain_below (a : Int) (h : a ≤ MIN_ANGLE) :
    constrain a MIN_ANGLE MAX_ANGLE = MIN_ANGLE := by
  simp only [constrain, MIN_ANGLE, MAX_ANGLE] at h ⊢
  split_ifs <;> omega

/-- Above the upper limit, constrain yields the upper limit. -/
theorem constrain_above (a : Int) (h : MAX_ANGLE ≤ a) :
    constrain a MIN_ANGLE MAX_ANGLE = MAX_ANGLE := by
  simp only [constrain, MIN_ANGLE, MAX_ANGLE] at h ⊢
  split_ifs <;> omega

/-- Inside the limits, constrain is the identity. -/
theorem constrain_inside (a : Int) (h1 : MIN_ANGLE ≤ a) (h2 : a ≤ MAX_ANGLE) :
    constrain a MIN_ANGLE MAX_ANGLE = a := by
  simp only [constrain, MIN_ANGLE, MAX_ANGLE] at h1 h2 ⊢
  split_ifs <;> omega

/-- Closed form of the mapper: the interpolation divides evenly, so
mapAngleToTarget a = 4000 + 100 * (constrained angle - 70), and the uint16_t
conversion does not wrap. -/
theorem mapAngleToTarget_closed (a : Int) :
    mapAngleToTarget a = (4000 + 100 * (constrain a MIN_ANGLE MAX_ANGLE - 70)).toNat := by
  obtain ⟨hlo, hhi⟩ := constrain_mem a
  simp only [mapAngleToTarget, toUInt16, arduinoMap, MIN_ANGLE, MAX_ANGLE] at hlo hhi ⊢
  generalize constrain a 70 110 = k at hlo hhi ⊢
  rw [show (k - 70) * (8000 - 4000) = ((k - 70) * 100) * 40 by ring,
    show ((110 : Int) - 70) = 40 by norm_num]
  rw [Int.tdiv_eq_ediv (mul_nonneg (mul_nonneg (by omega) (by norm_num)) (by norm_num)) (by norm_num)]
  omega

/-- The mapper output always lies in [4000, 8000]. -/
theorem mapAngleToTarget_bounds (a : Int) :
    4000 ≤ mapAngleToTarget a ∧ mapAngleToTarget a ≤ 8000 := by
  have h := mapAngleToTarget_closed a
  have hc := constrain_mem a
  simp only [MIN_ANGLE, MAX_ANGLE] at h hc
  omega

/-- moveServo always produces a well-formed command when its channel is
enabled. -/
theorem cmdOk_moveServo (ch : Nat) (hch : ch ∈ ENABLED_CHANNELS) (a : Int) :
    cmdOk (moveServo ch a) :=
  ⟨hch, mapAngleToTarget_bounds a⟩

/-- Every command of resetAllServos is well formed. -/
theorem resetAllServos_cmdOk : ∀ cmd ∈ resetAllServos, cmdOk cmd := by decide

/-- Every command of synchronizedSweep is well formed. -/
theorem synchronizedSweep_cmdOk : ∀ cmd ∈ synchronizedSweep, cmdOk cmd := by decide

/-- Every command of waveSweep is well formed. -/
theorem waveSweep_cmdOk : ∀ cmd ∈ waveSweep, cmdOk cmd := by decide

/-- Every command of randomPattern is well formed, whatever angles the
random source produced. -/
theorem randomPattern_cmdOk (rands : List Int) :
    ∀ cmd ∈ randomPattern rands, cmdOk cmd := by
  intro cmd h
  simp only [randomPattern, setChannelParams, List.mem_flatMap, List.mem_range,
    List.mem_append, List.mem_cons, List.not_mem_nil, or_false] at h
  obtain ⟨i, hi, j, hj, hc⟩ := h
  have hch : ENABLED_CHANNELS.getD j 0 ∈ ENABLED_CHANNELS := by
    simp only [NUM_CHANNELS, ENABLED_CHANNELS, List.length_cons, List.length_nil] at hj
    interval_cases j <;> decide
  rcases hc with (rfl | rfl) | rfl
  · exact ⟨hch, trivial⟩
  · exact ⟨hch, trivial⟩
  · exact cmdOk_moveServo _ hch _

/-- Every command of a demo pattern pass is well formed. -/
theorem demoPatterns_cmdOk (rands : List Int) :
    ∀ cmd ∈ demoPatterns rands, cmdOk cmd := by
  intro cmd h
  simp only [demoPatterns, List.mem_append] at h
  rcases h with (h | h) | h
  · exact randomPattern_cmdOk rands cmd h
  · exact synchronizedSweep_cmdOk cmd h
  · exact waveSweep_cmdOk cmd h

/-- Every command runDemo issues is well formed. -/
theorem runDemo_cmdOk (sched : List (List Char × List Int)) :
    ∀ cmd ∈ (runDemo sched).1, cmdOk cmd := by
  induction sched with
  | nil => intro cmd h; simp [runDemo] at h
  | cons entry rest ih =>
    obtain ⟨buf, rands⟩ := entry
    intro cmd h
    simp only [runDemo] at h
    by_cases hc : (checkExitBuf buf).1 = true
    · rw [if_pos hc] at h
      exact resetAllServos_cmdOk cmd h
    · rw [if_neg hc] at h
      rcases List.mem_append.mp h with hm | hm
      · exact demoPatterns_cmdOk rands cmd hm
      · exact ih cmd hm

/-- Every command the angle branch of loop issues is well formed. -/
theorem dispatchAngle_cmdOk (angle : Int) :
    ∀ cmd ∈ (dispatchAngle angle).1, cmdOk cmd := by
  intro cmd h
  unfold dispatchAngle at h
  by_cases hr : MIN_ANGLE ≤ angle ∧ angle ≤ MAX_ANGLE
  · rw [if_pos hr] at h
    obtain ⟨ch, hch, rfl⟩ := List.mem_map.mp h
    exact cmdOk_moveServo ch hch angle
  · rw [if_neg hr] at h
    exact absurd h (List.not_mem_nil cmd)

/-- Every command a loop iteration issues is well formed. -/
theorem eventCmds_cmdOk (e : UserEvent) : ∀ cmd ∈ eventCmds e, cmdOk cmd := by
  intro cmd h
  unfold eventCmds loopBody at h
  by_cases hd : e.input.head? = some 'd'
  · rw [if_pos hd] at h
    exact runDemo_cmdOk e.demoSched cmd h
  · rw [if_neg hd] at h
    exact dispatchAngle_cmdOk _ cmd h

/-- Every command of a whole session trace is well formed. -/
theorem systemTrace_cmdOk (events : List UserEvent) :
    ∀ cmd ∈ systemTrace events, cmdOk cmd := by
  intro cmd h
  simp only [systemTrace, List.mem_append, List.mem_flatMap] at h
  rcases h with h | ⟨e, he, h⟩
  · exact resetAllServos_cmdOk cmd h
  · exact eventCmds_cmdOk e cmd h

/-- paramsEverSet distributes over append, threading the bookkeeping
state with noteParams. -/
theorem paramsEverSet_append (a b : List DeviceCmd) (st : Nat → Bool × Bool) :
    paramsEverSet (a ++ b) st = (paramsEverSet a st && paramsEverSet b (noteParams a st)) := by
  induction a generalizing st with
  | nil => simp [paramsEverSet, noteParams]
  | cons cmd rest ih =>
    cases cmd with
    | setTarget ch p => simp [paramsEverSet, noteParams, ih, Bool.and_assoc]
    | setSpeed ch v => simp [paramsEverSet, noteParams, ih]
    | setAcceleration ch v => simp [paramsEverSet, noteParams, ih]

/-- Recording a speed preserves a fully-set state. -/
theorem goodOn_noteSpeed (ch : Nat) (st : Nat → Bool × Bool) (h : goodOn st) :
    goodOn (noteSpeed ch st) := by
  intro c hc
  have hst := h c hc
  simp only [noteSpeed]
  split <;> simp [hst]

/-- Recording an acceleration preserves a fully-set state. -/
theorem goodOn_noteAccel (ch : Nat) (st : Nat → Bool × Bool) (h : goodOn st) :
    goodOn (noteAccel ch st) := by
  intro c hc
  have hst := h c hc
  simp only [noteAccel]
  split <;> simp [hst]

/-- Any trace of commands preserves a fully-set state. -/
theorem goodOn_noteParams (t : List DeviceCmd) (st : Nat → Bool × Bool) (h : goodOn st) :
    goodOn (noteParams t st) := by
  induction t generalizing st with
  | nil => exact h
  | cons cmd rest ih =>
    cases cmd with
    | setSpeed ch v => exact ih _ (goodOn_noteSpeed ch st h)
    | setAcceleration ch v => exact ih _ (goodOn_noteAccel ch st h)
    | setTarget ch p => exact ih _ h

/-- After resetAllServos, every enabled channel has both parameters
recorded, whatever the starting state. -/
theorem goodOn_after_reset (st : Nat → Bool × Bool) :
    goodOn (noteParams resetAllServos st) := by
  intro ch hch
  simp only [ENABLED_CHANNELS] at hch
  fin_cases hch <;> rfl

/-- From a fully-set state, any trace that only addresses enabled
channels passes the once-ever discipline. -/
theorem paramsEverSet_of_good (t : List DeviceCmd) (st : Nat → Bool × Bool)
    (hg : goodOn st) (hch : ∀ cmd ∈ t, cmdChannel cmd ∈ ENABLED_CHANNELS) :
    paramsEverSet t st = true := by
  induction t generalizing st with
  | nil => rfl
  | cons cmd rest ih =>
    cases cmd with
    | setSpeed ch v =>
      exact ih (noteSpeed ch st) (goodOn_noteSpeed ch st hg)
        (fun c hc => hch c (List.mem_cons_of_mem _ hc))
    | setAcceleration ch v =>
      exact ih (noteAccel ch st) (goodOn_noteAccel ch st hg)
        (fun c hc => hch c (List.mem_cons_of_mem _ hc))
    | setTarget ch p =>
      have hmem : ch ∈ ENABLED_CHANNELS := by
        simpa [cmdChannel] using hch _ (List.mem_cons_self _ _)
      have hst := hg ch hmem
      simp only [paramsEverSet, hst]
      simp [ih st hg (fun c hc => hch c (List.mem_cons_of_mem _ hc))]

/-- The demo exit check fires exactly when the polled buffer holds a
character that is neither a newline nor a carriage return. -/
theorem checkExitBuf_spec (buf : List Char) :
    (checkExitBuf buf).1 = true ↔ ∃ c ∈ buf, c ≠ '\n' ∧ c ≠ '\r' := by
  induction buf with
  | nil => simp [checkExitBuf]
  | cons c cs ih =>
    simp only [checkExitBuf]
    by_cases hc : c = '\n' ∨ c = '\r'
    · rw [if_pos hc, ih]
      rcases hc with rfl | rfl <;> simp
    · rw [if_neg hc]
      push_neg at hc
      simp only [List.mem_cons]
      exact ⟨fun _ => ⟨c, Or.inl rfl, hc⟩, fun _ => trivial⟩

/-- The post-demo drain always empties the buffer. -/
theorem drainInput_nil (cs : List Char) : drainInput cs = [] := by
  induction cs with
  | nil => rfl
  | cons c rest ih => exact ih

/-- Digit accumulation on a digit-free buffer returns the accumulator. -/
theorem parseDigits_no_digit (cs : List Char) (h : ∀ c ∈ cs, c.isDigit = false) :
    parseDigits cs 0 = 0 := by
  cases cs with
  | nil => rfl
  | cons c rest =>
    have hc := h c (List.mem_cons_self _ _)
    simp only [parseDigits]
    rw [if_neg (by simp [hc])]

/-- The parseInt lookahead on a digit-free buffer finds nothing or stops
at a minus sign followed by more digit-free input. -/
theorem skipToNumber_no_digit (cs : List Char) (h : ∀ c ∈ cs, c.isDigit = false) :
    skipToNumber cs = [] ∨
      ∃ rest, skipToNumber cs = ('-') :: rest ∧ ∀ c ∈ rest, c.isDigit = false := by
  induction cs with
  | nil => exact Or.inl rfl
  | cons c rest ih =>
    have hc := h c (List.mem_cons_self _ _)
    by_cases hm : c = '-'
    · subst hm
      refine Or.inr ⟨rest, ?_, fun x hx => h x (List.mem_cons_of_mem _ hx)⟩
      simp [skipToNumber]
    · simp only [skipToNumber]
      rw [if_neg (by simp [hc, hm])]
      exact ih (fun x hx => h x (List.mem_cons_of_mem _ hx))

/-- Serial.parseInt on a buffer with no digit returns 0, the Arduino
timeout result. -/
theorem parseIntArduino_no_digit (cs : List Char) (h : ∀ c ∈ cs, c.isDigit = false) :
    parseIntArduino cs = 0 := by
  unfold parseIntArduino
  rcases skipToNumber_no_digit cs h with hskip | ⟨rest, hskip, hrest⟩
  · rw [hskip]
  · rw [hskip]
    simp [parseDigits_no_digit rest hrest]

/-- C1: every set-target command in any session trace — covering every
moveServo caller: the angle branch of loop, randomPattern,
synchronizedSweep, waveSweep and initializeChannel — carries a
pulse-width value within the inclusive range [4000, 8000]. -/
theorem C1_setTarget_pulse_in_range (events : List UserEvent) (cmd : DeviceCmd)
    (ch p : Nat) (hmem : cmd ∈ systemTrace events)
    (heq : cmd = DeviceCmd.setTarget ch p) :
    4000 ≤ p ∧ p ≤ 8000 := by
  have h := (systemTrace_cmdOk events cmd hmem).2
  rw [heq] at h
  exact h

/-- Witness for C1: the session that initialises the servos and then
receives the angle line 90 contains the concrete command
setTarget 0 6000, whose pulse is within bounds. -/
theorem C1_witness :
    DeviceCmd.setTarget 0 6000 ∈ systemTrace [⟨['9', '0'], []⟩] ∧
      4000 ≤ 6000 ∧ 6000 ≤ 8000 :=
  ⟨by decide, C1_setTarget_pulse_in_range [⟨['9', '0'], []⟩] _ 0 6000 (by decide) rfl⟩

/-- C2: the three reference points of the mapper: 70 ↦ 4000, 110 ↦ 8000,
90 ↦ 6000. -/
theorem C2_reference_points :
    mapAngleToTarget 70 = 4000 ∧ mapAngleToTarget 110 = 8000 ∧
      mapAngleToTarget 90 = 6000 := by
  decide

/-- C3: on non-demo input parsing to an in-range angle, the dispatcher
issues exactly one set-target command per enabled channel (0, 1, 2), each
with the mapped value, reports the move and emits no rejection
diagnostic. -/
theorem C3_accept_in_range (input : List Char) (sched : List (List Char × List Int))
    (angle : Int) (hd : input.head? ≠ some 'd') (hp : parseIntArduino input = angle)
    (h1 : MIN_ANGLE ≤ angle) (h2 : angle ≤ MAX_ANGLE) :
    loopBody input sched =
      ([DeviceCmd.setTarget 0 (mapAngleToTarget angle),
        DeviceCmd.setTarget 1 (mapAngleToTarget angle),
        DeviceCmd.setTarget 2 (mapAngleToTarget angle)], [Diag.moving angle]) := by
  unfold loopBody
  rw [if_neg hd, hp]
  unfold dispatchAngle
  rw [if_pos ⟨h1, h2⟩]
  rfl

/-- Witness for C3 at the concrete input line 90. -/
theorem C3_witness :
    parseIntArduino ['9', '0'] = 90 ∧
      loopBody ['9', '0'] [] =
        ([DeviceCmd.setTarget 0 6000, DeviceCmd.setTarget 1 6000,
          DeviceCmd.setTarget 2 6000], [Diag.moving 90]) :=
  ⟨by decide,
    (C3_accept_in_range ['9', '0'] [] 90 (by decide) (by decide) (by decide)
      (by decide)).trans (by decide)⟩

/-- C4: on non-demo input parsing to an out-of-range angle, the
dispatcher emits the invalid-angle diagnostic and issues no device
command; the model is stateless across iterations, so the system stays
ready for the next input. -/
theorem C4_reject_out_of_range (input : List Char) (sched : List (List Char × List Int))
    (angle : Int) (hd : input.head? ≠ some 'd') (hp : parseIntArduino input = angle)
    (hout : ¬(MIN_ANGLE ≤ angle ∧ angle ≤ MAX_ANGLE)) :
    loopBody input sched = ([], [Diag.invalidAngle]) := by
  unfold loopBody
  rw [if_neg hd, hp]
  unfold dispatchAngle
  rw [if_neg hout]

/-- Witness for C4 at the concrete input lines 69 and 111. -/
theorem C4_witness :
    (parseIntArduino ['6', '9'] = 69 ∧ loopBody ['6', '9'] [] = ([], [Diag.invalidAngle])) ∧
      parseIntArduino ['1', '1', '1'] = 111 ∧
        loopBody ['1', '1', '1'] [] = ([], [Diag.invalidAngle]) :=
  ⟨⟨by decide, C4_reject_out_of_range ['6', '9'] [] 69 (by decide) (by decide) (by decide)⟩,
    by decide,
    C4_reject_out_of_range ['1', '1', '1'] [] 111 (by decide) (by decide) (by decide)⟩

/-- C5: the mapper clamps: any angle at or below MIN_ANGLE maps like
MIN_ANGLE, any angle at or above MAX_ANGLE maps like MAX_ANGLE; the
mapper is a total function, so out-of-range input cannot fail. -/
theorem C5_clamping (a : Int) :
    (a ≤ MIN_ANGLE → mapAngleToTarget a = mapAngleToTarget MIN_ANGLE) ∧
      (MAX_ANGLE ≤ a → mapAngleToTarget a = mapAngleToTarget MAX_ANGLE) := by
  constructor
  · intro h
    rw [mapAngleToTarget_closed, mapAngleToTarget_closed, constrain_below a h,
      constrain_inside MIN_ANGLE (le_refl _) (by decide)]
  · intro h
    rw [mapAngleToTarget_closed, mapAngleToTarget_closed, constrain_above a h,
      constrain_inside MAX_ANGLE (by decide) (le_refl _)]

/-- Witness for C5 at the concrete angles −100 and 500. -/
theorem C5_witness :
    ((-100 : Int) ≤ MIN_ANGLE ∧ mapAngleToTarget (-100) = mapAngleToTarget MIN_ANGLE) ∧
      MAX_ANGLE ≤ (500 : Int) ∧ mapAngleToTarget 500 = mapAngleToTarget MAX_ANGLE :=
  ⟨⟨by decide, (C5_clamping (-100)).1 (by decide)⟩,
    by decide, (C5_clamping 500).2 (by decide)⟩

/-- C6: the mapper is monotone non-decreasing on [MIN_ANGLE, MAX_ANGLE]. -/
theorem C6_monotone (a b : Int) (h1 : MIN_ANGLE ≤ a) (h2 : a ≤ b) (h3 : b ≤ MAX_ANGLE) :
    mapAngleToTarget a ≤ mapAngleToTarget b := by
  rw [mapAngleToTarget_closed, mapAngleToTarget_closed,
    constrain_inside a h1 (le_trans h2 h3), constrain_inside b (le_trans h1 h2) h3]
  simp only [MIN_ANGLE, MAX_ANGLE] at h1 h3
  omega

/-- Witness for C6 at the concrete pair 80 ≤ 100. -/
theorem C6_witness :
    MIN_ANGLE ≤ (80 : Int) ∧ (80 : Int) ≤ 100 ∧ (100 : Int) ≤ MAX_ANGLE ∧
      mapAngleToTarget 80 ≤ mapAngleToTarget 100 :=
  ⟨by decide, by decide, by decide, C6_monotone 80 100 (by decide) (by decide) (by decide)⟩

/-- C7 counterexample: the non-numeric, non-trigger input x is not
silently ignored: parseInt returns the timeout value 0, which is out of
range, so the dispatcher emits the invalid-angle diagnostic. -/
theorem C7_counterexample :
    ['x'].head? = some 'x' ∧ parseIntArduino ['x'] = 0 ∧
      loopBody ['x'] [] = ([], [Diag.invalidAngle]) := by
  decide

/-- C7 amended: non-trigger input containing no digit parses to 0 (the
Arduino parseInt timeout result), which is outside the angle bound, so
the dispatcher emits the invalid-angle rejection diagnostic — it is not
silent — and issues no device command. -/
theorem C7_unparsable_rejected (input : List Char) (sched : List (List Char × List Int))
    (hd : input.head? ≠ some 'd') (hnum : ∀ c ∈ input, c.isDigit = false) :
    loopBody input sched = ([], [Diag.invalidAngle]) := by
  unfold loopBody
  rw [if_neg hd, parseIntArduino_no_digit input hnum]
  unfold dispatchAngle
  rw [if_neg (by decide)]

/-- Witness for the amended C7 at the concrete input q. -/
theorem C7_witness :
    ['q'].head? = some 'q' ∧ loopBody ['q'] [] = ([], [Diag.invalidAngle]) :=
  ⟨by decide, C7_unparsable_rejected ['q'] [] (by decide) (by decide)⟩

/-- C8: at a demo poll, a buffered character other than newline or
carriage return makes the demo exit: the patterns are skipped, the
remaining buffer is drained to empty and resetAllServos moves every
enabled channel to the neutral mid position (90 degrees, pulse 6000);
a buffer of only newlines and carriage returns never exits, and the
patterns run. -/
theorem C8_demo_exit (buf : List Char) (rands : List Int)
    (rest : List (List Char × List Int)) :
    ((∃ c ∈ buf, c ≠ '\n' ∧ c ≠ '\r') →
      runDemo ((buf, rands) :: rest) = (resetAllServos, true, []) ∧
        ∀ ch ∈ ENABLED_CHANNELS, DeviceCmd.setTarget ch MID_POSITION ∈ resetAllServos) ∧
      ((∀ c ∈ buf, c = '\n' ∨ c = '\r') →
        runDemo ((buf, rands) :: rest) =
          (demoPatterns rands ++ (runDemo rest).1, (runDemo rest).2.1, (runDemo rest).2.2)) := by
  constructor
  · intro hex
    have hc : (checkExitBuf buf).1 = true := (checkExitBuf_spec buf).mpr hex
    constructor
    · simp only [runDemo]
      rw [if_pos hc, drainInput_nil]
    · decide
  · intro hall
    have hc : ¬(checkExitBuf buf).1 = true := by
      rw [checkExitBuf_spec]
      rintro ⟨c, hcm, hne⟩
      rcases hall c hcm with rfl | rfl
      · exact hne.1 rfl
      · exact hne.2 rfl
    simp only [runDemo]
    rw [if_neg hc]

/-- Witness for C8: a single poll seeing the buffer x exits at once and
resets; channel 0 is among those recentred at the mid position. -/
theorem C8_witness :
    (∃ c ∈ ['x'], c ≠ '\n' ∧ c ≠ '\r') ∧
      runDemo [(['x'], [])] = (resetAllServos, true, []) ∧
      DeviceCmd.setTarget 0 MID_POSITION ∈ resetAllServos :=
  ⟨by decide, ((C8_demo_exit ['x'] [] []).1 (by decide)).1,
    ((C8_demo_exit ['x'] [] []).1 (by decide)).2 0 (by decide)⟩

/-- C9 counterexample: in the session where setup initialises the servos
and the operator then sends the in-range angle line 90, the dispatcher
issues set-target commands without a fresh set-speed and set-acceleration
since each channel's previous move, so the per-move parameter discipline
fails on the trace (from either initial window state). -/
theorem C9_counterexample :
    paramsSinceLastMove (systemTrace [⟨['9', '0'], []⟩]) (fun _ => (false, false)) = false ∧
      paramsSinceLastMove (systemTrace [⟨['9', '0'], []⟩]) (fun _ => (true, true)) = false := by
  decide

/-- C9 amended: parameters are not re-sent before every move; instead,
every set-target in any session trace is preceded, at some earlier point
of the trace, by a set-speed and a set-acceleration for its channel
(initialisation sets both for every enabled channel; later moves may
reuse the previously pushed values). -/
theorem C9_params_set_before_first_move (events : List UserEvent) :
    paramsEverSet (systemTrace events) (fun _ => (false, false)) = true := by
  unfold systemTrace
  rw [paramsEverSet_append]
  have h1 : paramsEverSet resetAllServos (fun _ => (false, false)) = true := by decide
  rw [h1, Bool.true_and]
  refine paramsEverSet_of_good _ _ (goodOn_after_reset _) ?_
  intro cmd hcmd
  obtain ⟨e, he, hc⟩ := List.mem_flatMap.mp hcmd
  exact (eventCmds_cmdOk e cmd hc).1

/-- C10: the mapper computes 4000 + 100 · (clamp(a, 70, 110) − 70)
exactly in integer arithmetic: the interpolation divides evenly, the
output is a multiple of 100, and it fits a 16-bit unsigned value without
wrapping. -/
theorem C10_exact_interpolation (a : Int) :
    (mapAngleToTarget a : Int) = 4000 + 100 * (constrain a 70 110 - 70) ∧
      mapAngleToTarget a % 100 = 0 ∧ mapAngleToTarget a < 65536 := by
  have h := mapAngleToTarget_closed a
  have hc := constrain_mem a
  simp only [MIN_ANGLE, MAX_ANGLE] at h hc
  refine ⟨by omega, by omega, by omega⟩

end Maestro
